import Mathlib

/-!
# Verification of the CulinaryHaven incremental search controller

Shallow embedding of the `SearchBar` component (suggestion fetching,
keyboard navigation, debounced URL synchronisation, match highlighting)
and proofs of the specified properties.

State updates of the component are modelled as pure functions on an
explicit record; the debounce timer is a pending `(deadline, query)`
pair and navigations performed through the router are accumulated in a
log, so that timing claims become statements about a small timed run
function.
-/

/-- JavaScript `String.prototype.trim`, modelled on the character list
(leading and trailing whitespace removed). -/
def jsTrim (s : String) : String :=
  String.mk (((s.data.dropWhile Char.isWhitespace).reverse.dropWhile
    Char.isWhitespace).reverse)

/-- `URLSearchParams` as an ordered list of key/value pairs. -/
abbrev UrlParams := List (String × String)

/-- `URLSearchParams.get`: first value bound to the key, if any. -/
def getParam : UrlParams → String → Option String
  | [], _ => none
  | (k', v') :: rest, k => if k' = k then some v' else getParam rest k

/-- `URLSearchParams.delete`: removes every pair bound to the key. -/
def deleteParam (ps : UrlParams) (k : String) : UrlParams :=
  ps.filter (fun p => p.1 ≠ k)

/-- `URLSearchParams.set`: replaces the first pair bound to the key
(removing any later duplicates), appending when the key is absent. -/
def setParam : UrlParams → String → String → UrlParams
  | [], k, v => [(k, v)]
  | (k', v') :: rest, k, v =>
      if k' = k then (k, v) :: deleteParam rest k
      else (k', v') :: setParam rest k v

/-- A recipe suggestion as returned by the suggestion service. -/
structure Suggestion where
  id : Nat
  title : String
  category : Option String
deriving Repr, DecidableEq

/-- The mutable state of the `SearchBar` component: the `useState`
hooks, the pending URL-update timer (`urlUpdateTimeoutRef`, as a
`(deadline, query)` pair) and the log of navigations performed through
`router.push` (each entry the query parameters of one navigation).
The `searchTimeoutRef` handle of the source is only ever cleared and
never armed, so it carries no state and is omitted. -/
structure SearchState where
  search : String
  suggestions : List Suggestion
  loading : Bool
  showSuggestions : Bool
  highlightedIndex : Int
  urlTimer : Option (Nat × String)
  navs : List UrlParams
deriving Repr, DecidableEq

/-- The parameter set of the navigation fired for `searchTerm`, from the
timer body of `updateURL`: start from the current parameters, set
`search` to the term when its trim is non-empty, otherwise delete it,
and unconditionally delete `page`. -/
def buildNav (p0 : UrlParams) (searchTerm : String) : UrlParams :=
  deleteParam
    (if jsTrim searchTerm ≠ "" then setParam p0 "search" searchTerm
     else deleteParam p0 "search") "page"

/-- `updateURL`: cancels any pending URL-update timer and arms a new one
that will fire 500 time units from `now` with the given term. -/
def updateURL (now : Nat) (searchTerm : String) (s : SearchState) :
    SearchState :=
  { s with urlTimer := some (now + 500, searchTerm) }

/-- Fires the pending URL-update timer when its deadline has been
reached by time `t`: performs the navigation built by the timer body and
clears the timer. -/
def fireIfDue (p0 : UrlParams) (t : Nat) (s : SearchState) : SearchState :=
  match s.urlTimer with
  | some (d, q) =>
      if d ≤ t then
        { s with urlTimer := none, navs := s.navs ++ [buildNav p0 q] }
      else s
  | none => s

/-- Outcome of the external suggestion-service call awaited inside
`fetchSuggestions`. -/
inductive FetchOutcome where
  | success : List Suggestion → FetchOutcome
  | failure : FetchOutcome
deriving Repr, DecidableEq

/-- The synchronous head of `fetchSuggestions`, up to the first await:
when the trimmed value is empty or the value is shorter than 3, clears
the suggestions and closes the panel; otherwise sets the loading flag. -/
def fetchSync (value : String) (s : SearchState) : SearchState :=
  if jsTrim value = "" ∨ value.length < 3 then
    { s with suggestions := [], showSuggestions := false }
  else
    { s with loading := true }

/-- The continuation of `fetchSuggestions` after the service call
resolves: on success the results replace the suggestion list and the
panel is shown; on failure the list is cleared (the error is only
logged); the `finally` clause drops the loading flag in both cases. -/
def fetchDone : FetchOutcome → SearchState → SearchState
  | .success results, s =>
      { s with suggestions := results, showSuggestions := true,
               loading := false }
  | .failure, s =>
      { s with suggestions := [], loading := false }

/-- `fetchSuggestions` run to completion with the given service
outcome. The boolean records whether the external service was called. -/
def fetchSuggestions (value : String) (r : FetchOutcome)
    (s : SearchState) : SearchState × Bool :=
  if jsTrim value = "" ∨ value.length < 3 then
    ({ s with suggestions := [], showSuggestions := false }, false)
  else
    (fetchDone r { s with loading := true }, true)

/-- `handleInputChange` up to and including the synchronous head of the
`fetchSuggestions` call it makes: records the value as the query, resets
the highlighted index, recomputes the panel flag from the length-2
threshold (running the fetcher's synchronous guard when it fires the
fetch), and re-arms the URL-update timer. -/
def handleInputChange (now : Nat) (value : String) (s : SearchState) :
    SearchState :=
  let s1 := { s with search := value, highlightedIndex := -1 }
  let s2 :=
    if 2 ≤ value.length then
      fetchSync value { s1 with showSuggestions := true }
    else
      { s1 with showSuggestions := false, suggestions := [] }
  updateURL now value s2

/-- `handleSuggestionClick`: adopts the suggestion's title as the query,
closes the panel, cancels any pending URL-update timer, and immediately
navigates with `search` set to the title and `page` deleted. -/
def handleSuggestionClick (p0 : UrlParams) (sug : Suggestion)
    (s : SearchState) : SearchState :=
  { s with search := sug.title, showSuggestions := false,
           urlTimer := none,
           navs := s.navs ++ [deleteParam (setParam p0 "search" sug.title) "page"] }

/-- The `ArrowDown` index transition of `handleKeyDown`. -/
def arrowDownIdx (idx : Int) (n : Nat) : Int :=
  if idx < (n : Int) - 1 then idx + 1 else idx

/-- The `ArrowUp` index transition of `handleKeyDown`. -/
def arrowUpIdx (idx : Int) : Int :=
  if idx > 0 then idx - 1 else -1

/-- `handleKeyDown`: a no-op while the panel is hidden; otherwise
dispatches on the key string. `Enter` with a non-negative highlighted
index accepts the suggestion at that index; when the index is outside
the list the source dereferences `undefined` and throws, modelled as
`none`. `Enter` with no highlight closes the panel and re-arms the
debounced URL update; `Escape` closes the panel; other keys are
ignored. -/
def handleKeyDown (p0 : UrlParams) (now : Nat) (key : String)
    (s : SearchState) : Option SearchState :=
  if !s.showSuggestions then some s
  else if key = "ArrowDown" then
    some { s with highlightedIndex :=
                    arrowDownIdx s.highlightedIndex s.suggestions.length }
  else if key = "ArrowUp" then
    some { s with highlightedIndex := arrowUpIdx s.highlightedIndex }
  else if key = "Enter" then
    if 0 ≤ s.highlightedIndex then
      match s.suggestions.get? s.highlightedIndex.toNat with
      | some sug => some (handleSuggestionClick p0 sug s)
      | none => none
    else
      some (updateURL now s.search { s with showSuggestions := false })
  else if key = "Escape" then
    some { s with showSuggestions := false }
  else some s

/-- The initial hook state of `SearchBar`: the query is seeded from the
current `search` parameter (`searchParams.get("search") || ""`, which
yields the empty string both when the parameter is absent and when it is
empty), the list is empty, nothing is loading, the panel is closed and
no row is highlighted. -/
def initState (p0 : UrlParams) : SearchState :=
  { search := (getParam p0 "search").getD ""
  , suggestions := []
  , loading := false
  , showSuggestions := false
  , highlightedIndex := -1
  , urlTimer := none
  , navs := [] }

/-- Timed run of the URL sync scheduler: each event `(t, q)` is a call
`updateURL t q` at time `t` (events in chronological order); before an
event is handled, a pending timer whose deadline has passed fires; after
the last event, time advances to `endT` and any due timer fires. -/
def runSched (p0 : UrlParams) : SearchState → List (Nat × String) → Nat →
    SearchState
  | s, [], endT => fireIfDue p0 endT s
  | s, (t, q) :: rest, endT =>
      runSched p0 (updateURL t q (fireIfDue p0 t s)) rest endT

/-- All events of the list happen at or after `t` and each less than 500
time units after the previous one (all inside one debounce window). -/
def withinWindow : Nat → List (Nat × String) → Prop
  | _, [] => True
  | t, (t', _) :: rest => t ≤ t' ∧ t' < t + 500 ∧ withinWindow t' rest

/-- The query of the last event, `q` when there is none. -/
def lastQuery : String → List (Nat × String) → String
  | q, [] => q
  | _, (_, q') :: rest => lastQuery q' rest

/-- The time of the last event, `t` when there is none. -/
def lastTime : Nat → List (Nat × String) → Nat
  | t, [] => t
  | _, (t', _) :: rest => lastTime t' rest

/-- The events the navigation state machine of the spec ranges over:
the two arrow keys (dispatched through `handleKeyDown`), wholesale
replacement of the suggestion list by a successful fetch, and closing
of the panel (the `Escape` path). -/
inductive NavEvent where
  | arrowUp
  | arrowDown
  | replace : List Suggestion → NavEvent
  | closePanel
deriving Repr, DecidableEq

/-- Whether the event replaces the suggestion list. -/
def NavEvent.isReplace : NavEvent → Bool
  | .replace _ => true
  | _ => false

/-- One step of the navigation machine, each case taken from the source
handler it names: the arrow cases are the `ArrowDown`/`ArrowUp` cases of
`handleKeyDown` (guarded by the panel flag), `replace` is the success
continuation of `fetchSuggestions`, `closePanel` is the `Escape` case. -/
def navStep (s : SearchState) : NavEvent → SearchState
  | .arrowDown =>
      if s.showSuggestions then
        { s with highlightedIndex :=
                   arrowDownIdx s.highlightedIndex s.suggestions.length }
      else s
  | .arrowUp =>
      if s.showSuggestions then
        { s with highlightedIndex := arrowUpIdx s.highlightedIndex }
      else s
  | .replace results => fetchDone (.success results) s
  | .closePanel => { s with showSuggestions := false }

/-- A whole sequence of navigation events. -/
def runNav (s : SearchState) (events : List NavEvent) : SearchState :=
  events.foldl navStep s

/-! ## The match highlighter -/

/-- Case-insensitive comparison of `term` against the head of `text`
(does `text` start with `term`, ignoring case?). -/
def startsWithCI : List Char → List Char → Bool
  | [], _ => true
  | _ :: _, [] => false
  | a :: as, b :: bs => a.toLower = b.toLower && startsWithCI as bs

/-- `text.split(new RegExp("(" + term + ")", "gi"))` for a literal term:
splits `text` at each leftmost case-insensitive occurrence of `term`,
keeping the matched slices in the output (the regex is wrapped in a
capture group, so JavaScript `split` interleaves them with the
non-matching slices). `acc` is the non-matching slice read so far,
reversed. -/
def splitCaptureCI (term : List Char) : List Char → List Char →
    List (List Char)
  | acc, [] => [acc.reverse]
  | acc, c :: cs =>
      if term ≠ [] ∧ startsWithCI term (c :: cs) then
        acc.reverse :: (c :: cs).take term.length ::
          splitCaptureCI term [] ((c :: cs).drop term.length)
      else
        splitCaptureCI term (c :: acc) cs
termination_by _ text => text.length
decreasing_by
  · rename_i h
    have ht : 0 < term.length := by
      rcases term with _ | ⟨a, as⟩
      · exact absurd rfl h.1
      · exact Nat.succ_pos _
    simp only [List.length_drop, List.length_cons]
    omega
  · simp

/-- Syntactic validity of a regular-expression pattern, modelling the
host `RegExp` constructor (which the source invokes inside `try`):
groups must balance and a backslash must escape a character. Quantifier
placement and character classes are not modelled; the terms exercised
here contain neither. -/
def regexOkAux : List Char → Nat → Bool
  | [], d => d == 0
  | '\\' :: rest, d =>
      match rest with
      | [] => false
      | _ :: rest2 => regexOkAux rest2 d
  | '(' :: rest, d => regexOkAux rest (d + 1)
  | ')' :: rest, d =>
      match d with
      | 0 => false
      | d' + 1 => regexOkAux rest d'
  | _ :: rest, d => regexOkAux rest d

/-- Whether `new RegExp("(" + term + ")", "gi")` succeeds. -/
def regexOk (term : String) : Bool :=
  regexOkAux ('(' :: term.data ++ [')']) 0

/-- What `highlightMatch` renders: either the input text passed through
untouched (the empty-term and pattern-failure paths) or the list of
slices, each flagged as highlighted (wrapped in the marker span) or
plain. -/
inductive HighlightResult where
  | raw : String → HighlightResult
  | pieces : List (String × Bool) → HighlightResult
deriving Repr, DecidableEq

/-- `highlightMatch`: returns the text untouched for an empty term;
otherwise splits on the pattern built from the term and marks every
slice that equals the term case-insensitively; when the pattern cannot
be constructed, the `catch` returns the text untouched. -/
def highlightMatch (text searchTerm : String) : HighlightResult :=
  if searchTerm = "" then .raw text
  else if regexOk searchTerm then
    .pieces ((splitCaptureCI searchTerm.data [] text.data).map fun p =>
      (String.mk p, p.map Char.toLower = searchTerm.data.map Char.toLower))
  else .raw text

/-- Concatenation of the slices of a highlight rendering, in order. -/
def joinPieces (ps : List (String × Bool)) : String :=
  String.mk (ps.map (fun p => p.1.data)).flatten

/-! ## Lemmas about the URL parameter operations -/

lemma getParam_deleteParam (ps : UrlParams) (k : String) :
    getParam (deleteParam ps k) k = none := by
  induction ps with
  | nil => rfl
  | cons hd tl ih =>
      by_cases h : hd.1 = k
      · simpa [deleteParam, h] using ih
      · simpa [deleteParam, getParam, h] using ih

lemma getParam_deleteParam_ne (ps : UrlParams) (k k' : String)
    (h : k' ≠ k) : getParam (deleteParam ps k') k = getParam ps k := by
  induction ps with
  | nil => rfl
  | cons hd tl ih =>
      rcases hd with ⟨a, b⟩
      have hstep : deleteParam ((a, b) :: tl) k' =
          if a = k' then deleteParam tl k'
          else (a, b) :: deleteParam tl k' := by
        simp only [deleteParam, List.filter_cons]
        by_cases h1 : a = k' <;> simp [h1]
      rw [hstep]
      by_cases h1 : a = k'
      · have hak : a ≠ k := by rw [h1]; exact h
        rw [if_pos h1, ih]
        simp [getParam, hak]
      · rw [if_neg h1]
        by_cases h2 : a = k
        · simp [getParam, h2]
        · simp [getParam, h2, ih]

lemma getParam_setParam (ps : UrlParams) (k v : String) :
    getParam (setParam ps k v) k = some v := by
  induction ps with
  | nil => simp [setParam, getParam]
  | cons hd tl ih =>
      rcases hd with ⟨a, b⟩
      by_cases h1 : a = k
      · simp [setParam, h1, getParam]
      · simp [setParam, h1, getParam, ih]

/-! ## Keyboard navigation -/

lemma handleKeyDown_arrowDown (p0 : UrlParams) (now : Nat)
    (s : SearchState) (hs : s.showSuggestions = true) :
    handleKeyDown p0 now "ArrowDown" s =
      some { s with highlightedIndex :=
               arrowDownIdx s.highlightedIndex s.suggestions.length } := by
  simp [handleKeyDown, hs]

lemma handleKeyDown_arrowUp (p0 : UrlParams) (now : Nat)
    (s : SearchState) (hs : s.showSuggestions = true) :
    handleKeyDown p0 now "ArrowUp" s =
      some { s with highlightedIndex := arrowUpIdx s.highlightedIndex } := by
  simp [handleKeyDown, hs]

lemma arrowDownIdx_eq_min (idx : Int) (n : Nat) (h : idx ≤ (n : Int) - 1) :
    arrowDownIdx idx n = min (idx + 1) ((n : Int) - 1) := by
  unfold arrowDownIdx
  split <;> omega

lemma arrowUpIdx_eq_max (idx : Int) (h : -1 ≤ idx) :
    arrowUpIdx idx = max (idx - 1) (-1) := by
  unfold arrowUpIdx
  split <;> omega

/-- C5: while the panel is shown and the highlighted index lies in
`[-1, N-1]`, `ArrowDown` maps the index to `min(index + 1, N - 1)` (so
it is a no-op when the list is empty or the index is already `N-1`) and
`ArrowUp` maps it to `max(index - 1, -1)` (so it is a no-op from `-1`);
nothing else of the state changes. -/
theorem arrowKey_transitions (p0 : UrlParams) (now : Nat)
    (s : SearchState) (hs : s.showSuggestions = true)
    (hlo : -1 ≤ s.highlightedIndex)
    (hhi : s.highlightedIndex ≤ (s.suggestions.length : Int) - 1) :
    handleKeyDown p0 now "ArrowDown" s =
      some { s with highlightedIndex := min (s.highlightedIndex + 1) ((s.suggestions.length : Int) - 1) } ∧
    handleKeyDown p0 now "ArrowUp" s =
      some { s with highlightedIndex := max (s.highlightedIndex - 1) (-1) } ∧
    (s.suggestions.length = 0 →
      handleKeyDown p0 now "ArrowDown" s = some s) ∧
    (s.highlightedIndex = (s.suggestions.length : Int) - 1 →
      handleKeyDown p0 now "ArrowDown" s = some s) ∧
    (s.highlightedIndex = -1 →
      handleKeyDown p0 now "ArrowUp" s = some s) := by
  refine ⟨?_, ?_, ?_, ?_, ?_⟩
  · rw [handleKeyDown_arrowDown p0 now s hs,
      arrowDownIdx_eq_min s.highlightedIndex s.suggestions.length hhi]
  · rw [handleKeyDown_arrowUp p0 now s hs,
      arrowUpIdx_eq_max s.highlightedIndex hlo]
  · intro h0
    rw [handleKeyDown_arrowDown p0 now s hs]
    have : arrowDownIdx s.highlightedIndex s.suggestions.length =
        s.highlightedIndex := by
      unfold arrowDownIdx
      split <;> omega
    rw [this]
  · intro h0
    rw [handleKeyDown_arrowDown p0 now s hs]
    have : arrowDownIdx s.highlightedIndex s.suggestions.length =
        s.highlightedIndex := by
      unfold arrowDownIdx
      split <;> omega
    rw [this]
  · intro h0
    rw [handleKeyDown_arrowUp p0 now s hs]
    have : arrowUpIdx s.highlightedIndex = s.highlightedIndex := by
      unfold arrowUpIdx
      split <;> omega
    rw [this]

/-- Witness for C5 at a concrete state: with two suggestions shown and
index 0, `ArrowDown` moves the highlight to index 1. -/
theorem arrowKey_transitions_witness :
    handleKeyDown [] 0 "ArrowDown"
      { search := "", suggestions := [⟨1, "A", none⟩, ⟨2, "B", none⟩],
        loading := false, showSuggestions := true, highlightedIndex := 0,
        urlTimer := none, navs := [] } =
    some { search := "", suggestions := [⟨1, "A", none⟩, ⟨2, "B", none⟩],
           loading := false, showSuggestions := true, highlightedIndex := 1,
           urlTimer := none, navs := [] } := by
  have h := (arrowKey_transitions [] 0
    { search := "", suggestions := [⟨1, "A", none⟩, ⟨2, "B", none⟩],
      loading := false, showSuggestions := true, highlightedIndex := 0,
      urlTimer := none, navs := [] } rfl (by decide) (by decide)).1
  rw [h]
  decide

/-- C10: while the panel is hidden, `handleKeyDown` returns the state
unchanged for every key (Enter and Escape included): no field changes,
no timer is armed and no navigation is performed. -/
theorem keyDown_noop_when_hidden (p0 : UrlParams) (now : Nat)
    (key : String) (s : SearchState) (hs : s.showSuggestions = false) :
    handleKeyDown p0 now key s = some s := by
  simp [handleKeyDown, hs]

/-- Witness for C10: Enter pressed in the initial state (panel closed)
changes nothing. -/
theorem keyDown_noop_when_hidden_witness :
    handleKeyDown [] 0 "Enter" (initState []) = some (initState []) :=
  keyDown_noop_when_hidden [] 0 "Enter" (initState []) rfl

/-! ## Initial state, fetcher, suggestion acceptance -/

/-- C9: at mount the query is seeded from the current `search` query
parameter (its value when present, the empty string otherwise — an
empty present value also yields the empty string, exactly as
`searchParams.get("search") || ""` does), and everything else starts
out empty: no suggestions, not loading, panel closed, no highlight,
no pending timer and no navigation performed. -/
theorem initState_spec (p0 : UrlParams) :
    (initState p0).suggestions = [] ∧
    (initState p0).loading = false ∧
    (initState p0).showSuggestions = false ∧
    (initState p0).highlightedIndex = -1 ∧
    (initState p0).urlTimer = none ∧
    (initState p0).navs = [] ∧
    (getParam p0 "search" = none → (initState p0).search = "") ∧
    (∀ v, getParam p0 "search" = some v → (initState p0).search = v) := by
  refine ⟨rfl, rfl, rfl, rfl, rfl, rfl, ?_, ?_⟩
  · intro h
    simp [initState, h]
  · intro v h
    simp [initState, h]

/-- Witness for C9: seeding with and without a `search` parameter. -/
theorem initState_spec_witness :
    (initState []).search = "" ∧
    (initState [("search", "pizza")]).search = "pizza" :=
  ⟨(initState_spec []).2.2.2.2.2.2.1 rfl,
   (initState_spec [("search", "pizza")]).2.2.2.2.2.2.2 "pizza" rfl⟩

/-- C7: when the trimmed query is empty or the query is shorter than 3,
the fetcher calls no service, clears the list and closes the panel
(leaving the rest of the state alone); otherwise it calls the service
and, whatever the outcome, ends with the loading flag false, the list
cleared on failure — the failure is absorbed (the model is a total
function; the source catches the error and only logs it). -/
theorem fetchSuggestions_spec (value : String) (r : FetchOutcome)
    (s : SearchState) :
    ((jsTrim value = "" ∨ value.length < 3) →
      fetchSuggestions value r s =
        ({ s with suggestions := [], showSuggestions := false }, false)) ∧
    (¬(jsTrim value = "" ∨ value.length < 3) →
      (fetchSuggestions value r s).2 = true ∧
      (fetchSuggestions value r s).1.loading = false ∧
      (r = .failure → (fetchSuggestions value r s).1.suggestions = []) ∧
      (∀ results, r = .success results →
        (fetchSuggestions value r s).1.suggestions = results)) := by
  constructor
  · intro h
    simp [fetchSuggestions, h]
  · intro h
    cases r with
    | success results =>
        refine ⟨?_, ?_, ?_, ?_⟩ <;>
          simp [fetchSuggestions, fetchDone, h]
    | failure =>
        refine ⟨?_, ?_, ?_, ?_⟩ <;>
          simp [fetchSuggestions, fetchDone, h]

/-- Witness for C7: both the short-query guard (at `"pi"`) and a failed
service call for `"pizza"` (list cleared, loading back to false). -/
theorem fetchSuggestions_spec_witness :
    fetchSuggestions "pi" .failure (initState []) =
      ({ initState [] with suggestions := [], showSuggestions := false }, false) ∧
    ((fetchSuggestions "pizza" .failure (initState [])).1.loading = false ∧
      (fetchSuggestions "pizza" .failure (initState [])).1.suggestions = []) := by
  refine ⟨(fetchSuggestions_spec "pi" .failure (initState [])).1 ?_, ?_⟩
  · right
    decide
  · have h := (fetchSuggestions_spec "pizza" .failure (initState [])).2 (by decide)
    exact ⟨h.2.1, h.2.2.1 rfl⟩

/-- C6: accepting a suggestion adopts its title as the query, closes the
panel, cancels any pending URL-update timer and immediately appends one
navigation — without any timer delay — whose parameters carry `search`
equal to the title and no `page`. -/
theorem suggestionClick_spec (p0 : UrlParams) (sug : Suggestion)
    (s : SearchState) :
    (handleSuggestionClick p0 sug s).search = sug.title ∧
    (handleSuggestionClick p0 sug s).showSuggestions = false ∧
    (handleSuggestionClick p0 sug s).urlTimer = none ∧
    ∃ n, (handleSuggestionClick p0 sug s).navs = s.navs ++ [n] ∧
      getParam n "search" = some sug.title ∧
      getParam n "page" = none := by
  refine ⟨rfl, rfl, rfl, deleteParam (setParam p0 "search" sug.title) "page", rfl, ?_, ?_⟩
  · rw [getParam_deleteParam_ne _ _ _ (by decide)]
    exact getParam_setParam p0 "search" sug.title
  · exact getParam_deleteParam _ "page"

/-! ## Input changes -/

/-- Counterexample to C3 as stated: for `"pi"` (length 2, so the claim
demands `showSuggestions = true`), the synchronous guard of the fetcher
invoked by `handleInputChange` immediately hides the panel again, so the
flag ends up false. -/
theorem inputChange_len2_cex :
    2 ≤ ("pi" : String).length ∧
    (handleInputChange 0 "pi" (initState [])).showSuggestions = false := by
  constructor
  · decide
  · rfl

/-- C3 amended: after `handleInputChange(newText)` (the synchronous
guard of the fetcher included) the query equals `newText` and the
highlighted index is `-1`; `showSuggestions` is true exactly when
`length(newText) ≥ 3` and `trim(newText)` is non-empty (not already at
length 2: the guard hides the panel again in the length-2 gap), and in
every other case the suggestion list is cleared. -/
theorem inputChange_spec (now : Nat) (value : String) (s : SearchState) :
    (handleInputChange now value s).search = value ∧
    (handleInputChange now value s).highlightedIndex = -1 ∧
    ((handleInputChange now value s).showSuggestions = true ↔
      (3 ≤ value.length ∧ jsTrim value ≠ "")) ∧
    (¬(3 ≤ value.length ∧ jsTrim value ≠ "") →
      (handleInputChange now value s).suggestions = []) := by
  by_cases h2 : 2 ≤ value.length
  · by_cases hg : jsTrim value = "" ∨ value.length < 3
    · have hng : ¬(3 ≤ value.length ∧ jsTrim value ≠ "") := by
        rcases hg with hg | hg
        · exact fun hc => hc.2 hg
        · exact fun hc => absurd hc.1 (by omega)
      refine ⟨?_, ?_, ?_, ?_⟩ <;>
        simp [handleInputChange, updateURL, fetchSync, h2, hg, hng]
    · have hpos : 3 ≤ value.length ∧ jsTrim value ≠ "" := by
        push_neg at hg
        exact ⟨by omega, hg.1⟩
      have hl3 : ¬value.length < 3 := by omega
      refine ⟨?_, ?_, ?_, ?_⟩ <;>
        simp [handleInputChange, updateURL, fetchSync, h2, hg, hpos, hl3]
  · have hng : ¬(3 ≤ value.length ∧ jsTrim value ≠ "") := by
      exact fun hc => absurd hc.1 (by omega)
    refine ⟨?_, ?_, ?_, ?_⟩ <;>
      simp [handleInputChange, updateURL, fetchSync, h2, hng]

/-- Witness for C3 (amended), at `"pizza"`: the query is recorded, the
highlight is reset and the panel flag ends up true. -/
theorem inputChange_spec_witness :
    (handleInputChange 0 "pizza" (initState [])).search = "pizza" ∧
    (handleInputChange 0 "pizza" (initState [])).highlightedIndex = -1 ∧
    (handleInputChange 0 "pizza" (initState [])).showSuggestions = true := by
  have h := inputChange_spec 0 "pizza" (initState [])
  exact ⟨h.1, h.2.1, h.2.2.1.mpr ⟨by decide, by decide⟩⟩

/-! ## The URL sync scheduler -/

/-- Counterexample to C2 as stated: scheduling the query `" pizza"`
(trim non-empty) and letting the timer fire navigates with `search`
bound to the raw query `" pizza"`, not to its trim `"pizza"` as the
claim demands. -/
theorem updateURL_trim_cex :
    (runSched [] (initState []) [(0, " pizza")] 500).navs =
      [[("search", " pizza")]] ∧
    jsTrim " pizza" = "pizza" ∧
    getParam [("search", " pizza")] "search" ≠ some (jsTrim " pizza") := by
  refine ⟨rfl, rfl, ?_⟩
  decide

/-- C2 amended: `updateURL` arms a timer for 500 units from now with the
given term, superseding any pending timer; when the deadline is reached
the timer fires exactly one navigation whose parameters are built from
the current parameter set with `search` bound to the scheduled query
itself (the source does not trim the stored value; the trim only decides
presence) when its trim is non-empty, `search` absent when the trim is
empty, and `page` always absent. -/
theorem updateURL_fire_spec (p0 : UrlParams) (s : SearchState)
    (now t : Nat) (q : String) :
    (updateURL now q s).urlTimer = some (now + 500, q) ∧
    (now + 500 ≤ t →
      (fireIfDue p0 t (updateURL now q s)).urlTimer = none ∧
      (fireIfDue p0 t (updateURL now q s)).navs =
        s.navs ++ [buildNav p0 q]) ∧
    (jsTrim q ≠ "" → getParam (buildNav p0 q) "search" = some q) ∧
    (jsTrim q = "" → getParam (buildNav p0 q) "search" = none) ∧
    getParam (buildNav p0 q) "page" = none := by
  refine ⟨rfl, ?_, ?_, ?_, ?_⟩
  · intro h
    constructor <;> simp [fireIfDue, updateURL, h]
  · intro h
    unfold buildNav
    rw [if_pos h, getParam_deleteParam_ne _ _ _ (by decide)]
    exact getParam_setParam p0 "search" q
  · intro h
    unfold buildNav
    rw [if_neg (by simp [h]), getParam_deleteParam_ne _ _ _ (by decide)]
    exact getParam_deleteParam p0 "search"
  · exact getParam_deleteParam _ "page"

/-- Witness for C2 (amended): scheduling `"piz"` over parameters
carrying a `page` and letting the timer fire at its deadline navigates
once, with `search = piz` and no `page`. -/
theorem updateURL_fire_spec_witness :
    (fireIfDue [("page", "2")] 500 (updateURL 0 "piz" (initState []))).navs =
      [buildNav [("page", "2")] "piz"] ∧
    getParam (buildNav [("page", "2")] "piz") "search" = some "piz" ∧
    getParam (buildNav [("page", "2")] "piz") "page" = none := by
  have h := updateURL_fire_spec [("page", "2")] (initState []) 0 500 "piz"
  exact ⟨(h.2.1 (by omega)).2, h.2.2.1 (by decide), h.2.2.2.2⟩

lemma lastTime_cons (t t' : Nat) (q' : String)
    (rest : List (Nat × String)) :
    lastTime t ((t', q') :: rest) = lastTime t' rest := rfl

lemma runSched_window (p0 : UrlParams) (endT : Nat) :
    ∀ (rest : List (Nat × String)) (t : Nat) (q : String) (s : SearchState),
      withinWindow t rest → lastTime t rest + 500 ≤ endT →
      runSched p0 { s with urlTimer := some (t + 500, q) } rest endT =
        { s with urlTimer := none,
                 navs := s.navs ++ [buildNav p0 (lastQuery q rest)] } := by
  intro rest
  induction rest with
  | nil =>
      intro t q s _ hend
      simp only [runSched, fireIfDue, lastQuery]
      rw [if_pos (by simpa [lastTime] using hend)]
  | cons hd r ih =>
      intro t q s hw hend
      rcases hd with ⟨t1, q1⟩
      rcases hw with ⟨hle, hlt, hw'⟩
      simp only [runSched]
      have hnofire :
          fireIfDue p0 t1 { s with urlTimer := some (t + 500, q) } =
            { s with urlTimer := some (t + 500, q) } := by
        simp only [fireIfDue]
        rw [if_neg (by omega)]
      rw [hnofire]
      have harm :
          updateURL t1 q1 { s with urlTimer := some (t + 500, q) } =
            { s with urlTimer := some (t1 + 500, q1) } := rfl
      rw [harm, ih t1 q1 s hw' (by simpa [lastTime] using hend)]
      rfl

/-- C4: for any non-empty burst of `updateURL` calls that all land
inside one debounce window (each strictly less than 500 time units
after the previous), once 500 units have passed after the last call
exactly one navigation has been performed, and it is the one built for
the query of the last call — last write wins, nothing accumulates. -/
theorem debounce_last_write_wins (p0 : UrlParams) (s : SearchState)
    (t0 : Nat) (q0 : String) (rest : List (Nat × String)) (endT : Nat)
    (hT : s.urlTimer = none)
    (hw : withinWindow t0 rest)
    (hend : lastTime t0 rest + 500 ≤ endT) :
    (runSched p0 s ((t0, q0) :: rest) endT).navs =
      s.navs ++ [buildNav p0 (lastQuery q0 rest)] ∧
    (runSched p0 s ((t0, q0) :: rest) endT).urlTimer = none := by
  have hnofire : fireIfDue p0 t0 s = s := by
    simp [fireIfDue, hT]
  have harm : updateURL t0 q0 s = { s with urlTimer := some (t0 + 500, q0) } := rfl
  simp only [runSched, hnofire, harm]
  rw [runSched_window p0 endT rest t0 q0 s hw hend]
  exact ⟨rfl, rfl⟩

/-- Witness for C4: the spec's burst `"p"`, `"pi"`, `"piz"` typed at
times 0, 100, 300 produces, by time 800, exactly the single navigation
for `"piz"`. -/
theorem debounce_last_write_wins_witness :
    (runSched [] (initState []) [(0, "p"), (100, "pi"), (300, "piz")] 800).navs =
      [buildNav [] "piz"] := by
  have h := debounce_last_write_wins [] (initState []) 0 "p"
    [(100, "pi"), (300, "piz")] 800 rfl
    (by constructor
        · omega
        · constructor
          · omega
          · constructor
            · omega
            · constructor
              · omega
              · trivial)
    (by simp [lastTime])
  simpa [initState, lastQuery] using h.1

/-! ## The highlighted-index invariant -/

lemma navStep_lower (s : SearchState) (e : NavEvent)
    (h : -1 ≤ s.highlightedIndex) : -1 ≤ (navStep s e).highlightedIndex := by
  cases e with
  | arrowDown =>
      simp only [navStep]
      split
      · simp only [arrowDownIdx]
        split <;> omega
      · exact h
  | arrowUp =>
      simp only [navStep]
      split
      · simp only [arrowUpIdx]
        split <;> omega
      · exact h
  | replace results => simpa [navStep, fetchDone] using h
  | closePanel => simpa [navStep] using h

lemma navStep_suggestions_eq (s : SearchState) (e : NavEvent)
    (he : e.isReplace = false) : (navStep s e).suggestions = s.suggestions := by
  cases e with
  | arrowDown => simp only [navStep]; split <;> rfl
  | arrowUp => simp only [navStep]; split <;> rfl
  | replace results => simp [NavEvent.isReplace] at he
  | closePanel => rfl

lemma navStep_upper (s : SearchState) (e : NavEvent)
    (he : e.isReplace = false)
    (h : s.highlightedIndex ≤ (s.suggestions.length : Int) - 1) :
    (navStep s e).highlightedIndex ≤ (s.suggestions.length : Int) - 1 := by
  cases e with
  | arrowDown =>
      simp only [navStep]
      split
      · simp only [arrowDownIdx]
        split <;> omega
      · exact h
  | arrowUp =>
      simp only [navStep]
      split
      · simp only [arrowUpIdx]
        split <;> omega
      · exact h
  | replace results => simp [NavEvent.isReplace] at he
  | closePanel => exact h

/-- Counterexample to C1 as stated: with two suggestions shown and no
highlight, two `ArrowDown` events move the index to 1; replacing the
list by a successful fetch of a single suggestion does not reset the
index, which is now outside `[-1, N-1] = [-1, 0]`. -/
theorem highlightedIndex_reset_cex :
    (runNav
      { search := "pizza", suggestions := [⟨1, "A", none⟩, ⟨2, "B", none⟩],
        loading := false, showSuggestions := true, highlightedIndex := -1,
        urlTimer := none, navs := [] }
      [.arrowDown, .arrowDown, .replace [⟨3, "C", none⟩]]).highlightedIndex = 1 ∧
    (runNav
      { search := "pizza", suggestions := [⟨1, "A", none⟩, ⟨2, "B", none⟩],
        loading := false, showSuggestions := true, highlightedIndex := -1,
        urlTimer := none, navs := [] }
      [.arrowDown, .arrowDown, .replace [⟨3, "C", none⟩]]).suggestions.length = 1 ∧
    ¬((runNav
      { search := "pizza", suggestions := [⟨1, "A", none⟩, ⟨2, "B", none⟩],
        loading := false, showSuggestions := true, highlightedIndex := -1,
        urlTimer := none, navs := [] }
      [.arrowDown, .arrowDown, .replace [⟨3, "C", none⟩]]).highlightedIndex ≤
        ((runNav
          { search := "pizza", suggestions := [⟨1, "A", none⟩, ⟨2, "B", none⟩],
            loading := false, showSuggestions := true, highlightedIndex := -1,
            urlTimer := none, navs := [] }
          [.arrowDown, .arrowDown, .replace [⟨3, "C", none⟩]]).suggestions.length : Int) - 1) := by
  refine ⟨rfl, rfl, ?_⟩
  decide

/-- C1 amended: over every sequence of ArrowUp/ArrowDown/replacement/
panel-close events the highlighted index never drops below `-1`; as long
as no replacement occurs it also stays at most `N - 1` for the (then
unchanged) list; but a replacement — a successful fetch included — and a
panel close leave the index untouched (the reset to `-1` happens only in
`handleInputChange`), so a replacement by a shorter list can leave the
index beyond the new `N - 1`. -/
theorem highlightedIndex_invariant (events : List NavEvent)
    (s : SearchState) (h0 : -1 ≤ s.highlightedIndex) :
    -1 ≤ (runNav s events).highlightedIndex ∧
    ((∀ e ∈ events, e.isReplace = false) →
      s.highlightedIndex ≤ (s.suggestions.length : Int) - 1 →
      (runNav s events).suggestions = s.suggestions ∧
      (runNav s events).highlightedIndex ≤ (s.suggestions.length : Int) - 1) ∧
    (∀ results,
      (navStep s (.replace results)).highlightedIndex = s.highlightedIndex) ∧
    (navStep s .closePanel).highlightedIndex = s.highlightedIndex := by
  refine ⟨?_, ?_, ?_, ?_⟩
  · induction events generalizing s with
    | nil => exact h0
    | cons e rest ih =>
        exact ih (navStep s e) (navStep_lower s e h0)
  · induction events generalizing s with
    | nil => exact fun _ h => ⟨rfl, h⟩
    | cons e rest ih =>
        intro hall h
        have he : e.isReplace = false := hall e (List.mem_cons_self e rest)
        have hsugg := navStep_suggestions_eq s e he
        have hup := navStep_upper s e he h
        have hrest := ih (navStep s e)
          (navStep_lower s e h0)
          (fun e' he' => hall e' (List.mem_cons_of_mem e he'))
          (hsugg ▸ hup)
        rw [hsugg] at hrest
        exact ⟨hrest.1, hrest.2⟩
  · intro results
    rfl
  · rfl

/-- Witness for C1 (amended): one ArrowDown then one ArrowUp over a
one-element shown list keeps the index inside `[-1, 0]`. -/
theorem highlightedIndex_invariant_witness :
    -1 ≤ (runNav
      { search := "", suggestions := [⟨1, "A", none⟩], loading := false,
        showSuggestions := true, highlightedIndex := -1, urlTimer := none,
        navs := [] } [.arrowDown, .arrowUp]).highlightedIndex ∧
    (runNav
      { search := "", suggestions := [⟨1, "A", none⟩], loading := false,
        showSuggestions := true, highlightedIndex := -1, urlTimer := none,
        navs := [] } [.arrowDown, .arrowUp]).highlightedIndex ≤
      (([⟨1, "A", none⟩] : List Suggestion).length : Int) - 1 := by
  have h := highlightedIndex_invariant [.arrowDown, .arrowUp]
    { search := "", suggestions := [⟨1, "A", none⟩], loading := false,
      showSuggestions := true, highlightedIndex := -1, urlTimer := none,
      navs := [] } (by decide)
  refine ⟨h.1, ?_⟩
  have h2 := h.2.1 (by intro e he; fin_cases he <;> rfl) (by decide)
  exact h2.2

/-! ## The match highlighter -/

lemma splitCaptureCI_flatten (term : List Char) :
    ∀ (acc text : List Char),
      (splitCaptureCI term acc text).flatten = acc.reverse ++ text := by
  intro acc text
  induction acc, text using splitCaptureCI.induct term with
  | case1 acc => simp [splitCaptureCI]
  | case2 acc c cs h ih =>
      rw [splitCaptureCI]
      rw [if_pos h]
      simp only [List.flatten_cons]
      rw [ih]
      simp [List.take_append_drop]
  | case3 acc c cs h ih =>
      rw [splitCaptureCI]
      rw [if_neg h]
      rw [ih]
      simp

/-- C8: the highlighter returns the text untouched for an empty term and
— instead of raising — also whenever the pattern built from the term is
not a valid regular expression; for a valid pattern it renders a list of
slices whose in-order concatenation is exactly the input text, so every
non-matching slice is preserved verbatim and in order. -/
theorem highlightMatch_spec (text searchTerm : String) :
    (searchTerm = "" → highlightMatch text searchTerm = .raw text) ∧
    (regexOk searchTerm = false → highlightMatch text searchTerm = .raw text) ∧
    (searchTerm ≠ "" → regexOk searchTerm = true →
      ∃ ps, highlightMatch text searchTerm = .pieces ps ∧
        joinPieces ps = text) := by
  refine ⟨?_, ?_, ?_⟩
  · intro h
    simp [highlightMatch, h]
  · intro h
    by_cases h0 : searchTerm = ""
    · simp [highlightMatch, h0]
    · simp [highlightMatch, h0, h]
  · intro h0 hok
    refine ⟨(splitCaptureCI searchTerm.data [] text.data).map
      (fun p => (String.mk p,
        decide (p.map Char.toLower = searchTerm.data.map Char.toLower))), ?_, ?_⟩
    case _ =>
      unfold highlightMatch
      rw [if_neg h0, if_pos hok]
    case _ =>
      unfold joinPieces
      rw [List.map_map]
      have hcomp : ((fun p : String × Bool => p.1.data) ∘
          (fun p : List Char => ((String.mk p : String),
            (decide (p.map Char.toLower = searchTerm.data.map Char.toLower) : Bool)))) =
          id := by
        funext p
        rfl
      rw [hcomp, List.map_id, splitCaptureCI_flatten]
      rfl

/-- Witness for C8: the spec's two examples — the invalid pattern `"("`
falls back to the untouched text `"a(b"`, and for `"piz"` over
`"Pizza Dough"` the rendered slices concatenate back to the text. -/
theorem highlightMatch_spec_witness :
    highlightMatch "a(b" "(" = .raw "a(b" ∧
    ∃ ps, highlightMatch "Pizza Dough" "piz" = .pieces ps ∧
      joinPieces ps = "Pizza Dough" :=
  ⟨(highlightMatch_spec "a(b" "(").2.1 (by decide),
   (highlightMatch_spec "Pizza Dough" "piz").2.2 (by decide) (by decide)⟩
